import Mathlib

/-!
Verification of the conversation checkpoint / time-travel engine.

The Python source is shallowly embedded:
* a Python `dict` (insertion-ordered, unique keys) becomes an association
  list with `dictGet` / `dictInsert` / `dictDelete`;
* `list.index` becomes `listIndex?` (first occurrence, `none` for the
  caught `ValueError`);
* values that Python obtains from the environment (`uuid.uuid4()`,
  `datetime.now()`) become explicit arguments;
* `copy.deepcopy` of an immutable value is the value itself; where object
  identity matters (deep-copy isolation) an explicit heap of cells is used;
* fallible calls return `Except`, and the collaborator calls of the agent
  (language model, tool executor, checkpoint judge) are function arguments.
-/

/-- Lookup in an association list, first matching key wins
(Python `d.get(k)` / `d[k]`). -/
def dictGet {κ α : Type} [BEq κ] (d : List (κ × α)) (k : κ) : Option α :=
  match d with
  | [] => none
  | (k', v) :: rest => if k' == k then some v else dictGet rest k

/-- Python `d[k] = v`: replace in place when the key is present, append
otherwise. -/
def dictInsert {κ α : Type} [BEq κ] (d : List (κ × α)) (k : κ) (v : α) :
    List (κ × α) :=
  match d with
  | [] => [(k, v)]
  | (k', v') :: rest =>
      if k' == k then (k, v) :: rest else (k', v') :: dictInsert rest k v

/-- Python `del d[k]` (on a dict with unique keys). -/
def dictDelete {κ α : Type} [BEq κ] (d : List (κ × α)) (k : κ) :
    List (κ × α) :=
  match d with
  | [] => []
  | (k', v) :: rest =>
      if k' == k then dictDelete rest k else (k', v) :: dictDelete rest k

/-- Delete every key of `ks` that is present (the removal loop of
`restore_checkpoint`). -/
def deleteMany {κ α : Type} [BEq κ] (d : List (κ × α)) (ks : List κ) :
    List (κ × α) :=
  ks.foldl (fun acc k => dictDelete acc k) d

/-- Python `l.index(k)` wrapped in try/except: index of the first
occurrence, `none` when absent. -/
def listIndex? {κ : Type} [BEq κ] (l : List κ) (k : κ) : Option Nat :=
  match l with
  | [] => none
  | x :: rest => if x == k then some 0 else (listIndex? rest k).map (· + 1)

theorem dictGet_dictInsert_self {κ α : Type} [BEq κ] [LawfulBEq κ]
    (d : List (κ × α)) (k : κ) (v : α) :
    dictGet (dictInsert d k v) k = some v := by
  induction d with
  | nil => simp [dictGet, dictInsert]
  | cons p rest ih =>
      obtain ⟨k', v'⟩ := p
      by_cases h : k' == k
      · simp [dictGet, dictInsert, h]
      · simp [dictGet, dictInsert, h, ih]

theorem dictGet_dictDelete_self {κ α : Type} [BEq κ] [LawfulBEq κ]
    (d : List (κ × α)) (k : κ) :
    dictGet (dictDelete d k) k = none := by
  induction d with
  | nil => simp [dictGet, dictDelete]
  | cons p rest ih =>
      obtain ⟨k', v'⟩ := p
      by_cases h : (k' == k) = true
      · simpa [dictDelete, h] using ih
      · simpa [dictDelete, h, dictGet] using ih

theorem dictGet_dictDelete_ne {κ α : Type} [BEq κ] [LawfulBEq κ]
    (d : List (κ × α)) {k k' : κ} (h : k ≠ k') :
    dictGet (dictDelete d k') k = dictGet d k := by
  induction d with
  | nil => simp [dictGet, dictDelete]
  | cons p rest ih =>
      obtain ⟨k₀, v₀⟩ := p
      by_cases h0 : (k₀ == k') = true
      · have e : k₀ = k' := eq_of_beq h0
        have hk : (k₀ == k) = false := by
          subst e
          exact beq_eq_false_iff_ne.mpr (fun hc => h hc.symm)
        simpa [dictDelete, h0, dictGet, hk] using ih
      · by_cases h1 : (k₀ == k) = true
        · simp [dictDelete, h0, dictGet, h1]
        · simpa [dictDelete, h0, dictGet, h1] using ih

theorem dictGet_deleteMany {κ α : Type} [BEq κ] [LawfulBEq κ] [DecidableEq κ]
    (ks : List κ) (d : List (κ × α)) (k : κ) :
    dictGet (deleteMany d ks) k =
      if k ∈ ks then none else dictGet d k := by
  induction ks generalizing d with
  | nil => simp [deleteMany]
  | cons k0 rest ih =>
      have step : deleteMany d (k0 :: rest) = deleteMany (dictDelete d k0) rest := rfl
      rw [step, ih]
      by_cases h : k = k0
      · subst h
        by_cases hr : k ∈ rest <;>
          simp [hr, dictGet_dictDelete_self]
      · have hne : dictGet (dictDelete d k0) k = dictGet d k :=
          dictGet_dictDelete_ne d h
        by_cases hr : k ∈ rest <;> simp [hr, h, hne]

theorem listIndex?_lt_length {κ : Type} [BEq κ] {l : List κ} {k : κ} {i : Nat}
    (h : listIndex? l k = some i) : i < l.length := by
  induction l generalizing i with
  | nil => simp [listIndex?] at h
  | cons x rest ih =>
      by_cases hx : (x == k) = true
      · simp [listIndex?, hx] at h
        simp
        omega
      · simp [listIndex?, hx] at h
        obtain ⟨j, hj, rfl⟩ := h
        have := ih hj
        simp
        omega

/-! ## Serialized messages and checkpoint state

`ChatAgent.save_checkpoint` and `_create_auto_checkpoint` store each
message as the dict
`\x7b"type": type(msg).__name__, "content": ..., "additional_kwargs": ...,
"tool_calls": ...\x7d`; `SerMsg` embeds that dict and `StateDict` the
`\x7b"messages": [...]\x7d` state handed to the manager. -/

structure SerMsg where
  type : String
  content : String
  additional_kwargs : List (String × String)
  tool_calls : List String
deriving DecidableEq

structure StateDict where
  messages : List SerMsg
deriving DecidableEq

/-! ## Checkpoint and CheckpointManager (src/app/checkpoint_manager.py) -/

/-- The `Checkpoint` dataclass: fields `id`, `name`, `timestamp`, `state`,
`message_count`, `description` — exactly these, the dataclass declares no
other attribute. -/
structure Checkpoint where
  id : String
  name : String
  timestamp : String
  state : StateDict
  message_count : Nat
  description : String
deriving DecidableEq

/-- `CheckpointManager.__init__`: the id-to-checkpoint dict and the
chronological order list. -/
structure CheckpointManager where
  checkpoints : List (String × Checkpoint)
  checkpoint_order : List String
deriving DecidableEq

namespace CheckpointManager

/-- `save_checkpoint(state, name=None, description="")`.  The generated
`str(uuid.uuid4())[:8]` and `datetime.now().isoformat()` are environment
inputs and appear as the `freshId` and `timestamp` arguments.  The default
name is built from `len(self.checkpoints) + 1`, and `copy.deepcopy(state)`
of the immutable embedded value is the value itself. -/
def save_checkpoint (mgr : CheckpointManager) (state : StateDict)
    (name : Option String) (description : String)
    (freshId timestamp : String) : Checkpoint × CheckpointManager :=
  let message_count := state.messages.length
  let name' :=
    match name with
    | some n =>
        if n = "" then "Checkpoint " ++ toString (mgr.checkpoints.length + 1)
        else n
    | none => "Checkpoint " ++ toString (mgr.checkpoints.length + 1)
  let cp : Checkpoint :=
    ⟨freshId, name', timestamp, state, message_count, description⟩
  (cp,
   ⟨dictInsert mgr.checkpoints freshId cp,
    mgr.checkpoint_order ++ [freshId]⟩)

/-- A summary value: the summary dicts mix strings and the integer
`message_count`. -/
inductive SVal where
  | s (v : String)
  | n (v : Nat)
deriving DecidableEq

/-- `list_checkpoints`: one summary dict per order entry whose id resolves
in the checkpoint dict, listing exactly the keys the source writes. -/
def list_checkpoints (mgr : CheckpointManager) :
    List (List (String × SVal)) :=
  mgr.checkpoint_order.filterMap (fun cpId =>
    (dictGet mgr.checkpoints cpId).map (fun cp =>
      [("id", SVal.s cp.id),
       ("name", SVal.s cp.name),
       ("timestamp", SVal.s cp.timestamp),
       ("message_count", SVal.n cp.message_count),
       ("description", SVal.s cp.description)]))

/-- `get_checkpoint`: `self.checkpoints.get(checkpoint_id)`. -/
def get_checkpoint (mgr : CheckpointManager) (checkpoint_id : String) :
    Option Checkpoint :=
  dictGet mgr.checkpoints checkpoint_id

/-- `restore_checkpoint`: not-found returns `None`; otherwise every id
positioned strictly after the target in the order list is deleted from
the dict, the order list is truncated, and (a deep copy of) the stored
state is returned. -/
def restore_checkpoint (mgr : CheckpointManager) (checkpoint_id : String) :
    Option (StateDict × CheckpointManager) :=
  match dictGet mgr.checkpoints checkpoint_id with
  | none => none
  | some checkpoint =>
      match listIndex? mgr.checkpoint_order checkpoint_id with
      | none => none
      | some index =>
          let toRemove := mgr.checkpoint_order.drop (index + 1)
          some (checkpoint.state,
                ⟨deleteMany mgr.checkpoints toRemove,
                 mgr.checkpoint_order.take (index + 1)⟩)

/-- `delete_checkpoint`: absent id returns `False`; a present id is
removed from the dict and from the order list (`list.remove`, first
occurrence; `none` embeds the uncaught `ValueError` when the id is in the
dict but not in the order list). -/
def delete_checkpoint (mgr : CheckpointManager) (checkpoint_id : String) :
    Option (Bool × CheckpointManager) :=
  match dictGet mgr.checkpoints checkpoint_id with
  | none => some (false, mgr)
  | some _ =>
      if checkpoint_id ∈ mgr.checkpoint_order then
        some (true,
              ⟨dictDelete mgr.checkpoints checkpoint_id,
               mgr.checkpoint_order.erase checkpoint_id⟩)
      else none

/-- `clear_all`. -/
def clear_all (_mgr : CheckpointManager) : CheckpointManager := ⟨[], []⟩

/-- `get_latest_checkpoint`: `self.checkpoints.get(self.checkpoint_order[-1])`
when the order list is non-empty. -/
def get_latest_checkpoint (mgr : CheckpointManager) : Option Checkpoint :=
  match mgr.checkpoint_order.getLast? with
  | none => none
  | some lastId => dictGet mgr.checkpoints lastId

end CheckpointManager

/-! ## Helper lemmas about first-occurrence indices -/

theorem listIndex?_mem_take {κ : Type} [BEq κ] [LawfulBEq κ]
    {l : List κ} {k : κ} {i : Nat} (h : listIndex? l k = some i) :
    k ∈ l.take (i + 1) := by
  induction l generalizing i with
  | nil => simp [listIndex?] at h
  | cons x rest ih =>
      by_cases hx : (x == k) = true
      · have e : x = k := eq_of_beq hx
        simp [List.take_succ_cons, e]
      · simp [listIndex?, hx] at h
        obtain ⟨j, hj, rfl⟩ := h
        simp [List.take_succ_cons]
        exact Or.inr (ih hj)

theorem listIndex?_take {κ : Type} [BEq κ]
    {l : List κ} {k : κ} {i : Nat} (h : listIndex? l k = some i) :
    listIndex? (l.take (i + 1)) k = some i := by
  induction l generalizing i with
  | nil => simp [listIndex?] at h
  | cons x rest ih =>
      by_cases hx : (x == k) = true
      · simp [listIndex?, hx] at h
        subst h
        simp [List.take_succ_cons, listIndex?, hx]
      · simp [listIndex?, hx] at h
        obtain ⟨j, hj, rfl⟩ := h
        simp [List.take_succ_cons, listIndex?, hx, ih hj]

theorem filterMap_take_of_all_isSome {α β : Type} (f : α → Option β)
    (l : List α) (n : Nat) (h : ∀ a ∈ l, (f a).isSome) :
    (l.take n).filterMap f = (l.filterMap f).take n := by
  induction l generalizing n with
  | nil => simp
  | cons a rest ih =>
      cases n with
      | zero => simp
      | succ m =>
          have ha : (f a).isSome := h a (by simp)
          obtain ⟨b, hb⟩ := Option.isSome_iff_exists.mp ha
          have hrest : ∀ x ∈ rest, (f x).isSome := fun x hx => h x (by simp [hx])
          simp [List.take_succ_cons, List.filterMap_cons, hb, ih m hrest]

/-! ## Claim C1: restore is a cascading, truncating time travel -/

/-- C1.  For a checkpoint id present in the store at position `i` of the
creation-order list, `restore_checkpoint` deletes every checkpoint
positioned strictly after `i` from the id-to-checkpoint dict, truncates
the order list to length `i + 1` and returns the target checkpoint's
saved state; for an id not present it returns `none` and builds no new
store. -/
theorem restore_checkpoint_time_travel (mgr : CheckpointManager)
    (cpId : String) (cp : Checkpoint) (i : Nat)
    (hcp : dictGet mgr.checkpoints cpId = some cp)
    (hidx : listIndex? mgr.checkpoint_order cpId = some i) :
    ∃ mgr' : CheckpointManager,
      CheckpointManager.restore_checkpoint mgr cpId = some (cp.state, mgr') ∧
      mgr'.checkpoint_order = mgr.checkpoint_order.take (i + 1) ∧
      mgr'.checkpoint_order.length = i + 1 ∧
      (∀ j : String,
        dictGet mgr'.checkpoints j =
          if j ∈ mgr.checkpoint_order.drop (i + 1) then none
          else dictGet mgr.checkpoints j) ∧
      (∀ badId : String, dictGet mgr.checkpoints badId = none →
        CheckpointManager.restore_checkpoint mgr badId = none) := by
  refine ⟨⟨deleteMany mgr.checkpoints (mgr.checkpoint_order.drop (i + 1)),
           mgr.checkpoint_order.take (i + 1)⟩, ?_, rfl, ?_, ?_, ?_⟩
  · unfold CheckpointManager.restore_checkpoint
    rw [hcp, hidx]
  · have hlen : i < mgr.checkpoint_order.length := listIndex?_lt_length hidx
    simp [List.length_take]
    omega
  · intro j
    exact dictGet_deleteMany _ _ _
  · intro badId hbad
    unfold CheckpointManager.restore_checkpoint
    rw [hbad]

/-- A small concrete snapshot used by the witnesses. -/
def exState1 : StateDict := ⟨[⟨"HumanMessage", "hi", [], []⟩]⟩

/-- A store holding two checkpoints "aaa", "bbb" in that creation order. -/
def exMgrAB : CheckpointManager :=
  (CheckpointManager.save_checkpoint
    ((CheckpointManager.save_checkpoint ⟨[], []⟩ exState1 none "" "aaa" "t1").2)
    exState1 none "" "bbb" "t2").2

/-- Witness for C1: restoring "aaa" in the two-checkpoint store. -/
theorem restore_checkpoint_time_travel_witness :
    (dictGet exMgrAB.checkpoints "aaa" =
        some ⟨"aaa", "Checkpoint 1", "t1", exState1, 1, ""⟩) ∧
    (listIndex? exMgrAB.checkpoint_order "aaa" = some 0) ∧
    (∃ mgr' : CheckpointManager,
      CheckpointManager.restore_checkpoint exMgrAB "aaa" =
        some ((⟨"aaa", "Checkpoint 1", "t1", exState1, 1, ""⟩ :
          Checkpoint).state, mgr') ∧
      mgr'.checkpoint_order = exMgrAB.checkpoint_order.take (0 + 1) ∧
      mgr'.checkpoint_order.length = 0 + 1 ∧
      (∀ j : String,
        dictGet mgr'.checkpoints j =
          if j ∈ exMgrAB.checkpoint_order.drop (0 + 1) then none
          else dictGet exMgrAB.checkpoints j) ∧
      (∀ badId : String, dictGet exMgrAB.checkpoints badId = none →
        CheckpointManager.restore_checkpoint exMgrAB badId = none)) :=
  ⟨by decide, by decide,
   restore_checkpoint_time_travel exMgrAB "aaa"
     ⟨"aaa", "Checkpoint 1", "t1", exState1, 1, ""⟩ 0 (by decide) (by decide)⟩

/-! ## Claim C5: restore-then-list, and idempotence of restore -/

/-- C5.  In a well-formed store (no duplicate order ids, every ordered id
resolving), restoring a checkpoint at position `i` makes `list_checkpoints`
return exactly the summaries of the checkpoints at positions at or before
`i`, and an immediate second `restore_checkpoint` with the same id returns
the same state and leaves the store exactly as the first call left it. -/
theorem restore_list_and_idempotent (mgr : CheckpointManager)
    (cpId : String) (cp : Checkpoint) (i : Nat)
    (hnd : mgr.checkpoint_order.Nodup)
    (hall : ∀ id2 ∈ mgr.checkpoint_order,
      (dictGet mgr.checkpoints id2).isSome)
    (hcp : dictGet mgr.checkpoints cpId = some cp)
    (hidx : listIndex? mgr.checkpoint_order cpId = some i) :
    ∃ mgr1 : CheckpointManager,
      CheckpointManager.restore_checkpoint mgr cpId = some (cp.state, mgr1) ∧
      CheckpointManager.list_checkpoints mgr1 =
        (CheckpointManager.list_checkpoints mgr).take (i + 1) ∧
      CheckpointManager.restore_checkpoint mgr1 cpId =
        some (cp.state, mgr1) := by
  set ckpts1 := deleteMany mgr.checkpoints (mgr.checkpoint_order.drop (i + 1))
    with hc1
  set order1 := mgr.checkpoint_order.take (i + 1) with ho1
  have hlen : i < mgr.checkpoint_order.length := listIndex?_lt_length hidx
  have horder1len : order1.length = i + 1 := by
    simp [ho1, List.length_take]
    omega
  have hsplit : mgr.checkpoint_order =
      order1 ++ mgr.checkpoint_order.drop (i + 1) := by
    simp [ho1]
  have hdisj : ∀ j ∈ order1, j ∉ mgr.checkpoint_order.drop (i + 1) := by
    have h2 : (order1 ++ mgr.checkpoint_order.drop (i + 1)).Nodup := by
      rw [← hsplit]; exact hnd
    have := (List.nodup_append.mp h2).2.2
    intro j hj
    exact this hj
  have hget1 : ∀ j ∈ order1, dictGet ckpts1 j = dictGet mgr.checkpoints j := by
    intro j hj
    rw [hc1, dictGet_deleteMany]
    simp [hdisj j hj]
  refine ⟨⟨ckpts1, order1⟩, ?_, ?_, ?_⟩
  · unfold CheckpointManager.restore_checkpoint
    rw [hcp, hidx]
  · unfold CheckpointManager.list_checkpoints
    have hcongr :
        order1.filterMap (fun cpId2 =>
          (dictGet ckpts1 cpId2).map (fun cp2 =>
            [("id", CheckpointManager.SVal.s cp2.id),
             ("name", CheckpointManager.SVal.s cp2.name),
             ("timestamp", CheckpointManager.SVal.s cp2.timestamp),
             ("message_count", CheckpointManager.SVal.n cp2.message_count),
             ("description", CheckpointManager.SVal.s cp2.description)])) =
        order1.filterMap (fun cpId2 =>
          (dictGet mgr.checkpoints cpId2).map (fun cp2 =>
            [("id", CheckpointManager.SVal.s cp2.id),
             ("name", CheckpointManager.SVal.s cp2.name),
             ("timestamp", CheckpointManager.SVal.s cp2.timestamp),
             ("message_count", CheckpointManager.SVal.n cp2.message_count),
             ("description", CheckpointManager.SVal.s cp2.description)])) := by
      apply List.filterMap_congr
      intro a ha
      rw [hget1 a ha]
    rw [hcongr]
    exact filterMap_take_of_all_isSome _ _ _
      (fun a ha => by simp [Option.isSome_map]; exact hall a ha)
  · have hmem : cpId ∈ order1 := listIndex?_mem_take hidx
    have hgetcp : dictGet ckpts1 cpId = some cp := by
      rw [hget1 cpId hmem]; exact hcp
    have hidx1 : listIndex? order1 cpId = some i := listIndex?_take hidx
    unfold CheckpointManager.restore_checkpoint
    rw [hgetcp, hidx1]
    have hdrop : order1.drop (i + 1) = [] :=
      List.drop_eq_nil_of_le (by omega)
    have htake : order1.take (i + 1) = order1 :=
      List.take_of_length_le (by omega)
    dsimp only
    rw [hdrop, htake]
    rfl

/-- Witness for C5 on the two-checkpoint store, restoring "aaa". -/
theorem restore_list_and_idempotent_witness :
    exMgrAB.checkpoint_order.Nodup ∧
    (∀ id2 ∈ exMgrAB.checkpoint_order,
      (dictGet exMgrAB.checkpoints id2).isSome) ∧
    (dictGet exMgrAB.checkpoints "aaa" =
      some ⟨"aaa", "Checkpoint 1", "t1", exState1, 1, ""⟩) ∧
    (∃ mgr1 : CheckpointManager,
      CheckpointManager.restore_checkpoint exMgrAB "aaa" =
        some ((⟨"aaa", "Checkpoint 1", "t1", exState1, 1, ""⟩ :
          Checkpoint).state, mgr1) ∧
      CheckpointManager.list_checkpoints mgr1 =
        (CheckpointManager.list_checkpoints exMgrAB).take (0 + 1) ∧
      CheckpointManager.restore_checkpoint mgr1 "aaa" =
        some ((⟨"aaa", "Checkpoint 1", "t1", exState1, 1, ""⟩ :
          Checkpoint).state, mgr1)) :=
  ⟨by decide, by decide, by decide,
   restore_list_and_idempotent exMgrAB "aaa"
     ⟨"aaa", "Checkpoint 1", "t1", exState1, 1, ""⟩ 0
     (by decide) (by decide) (by decide) (by decide)⟩

/-! ## Claim C8: the default checkpoint name -/

/-- C8 (amended).  A save without an explicit name (or with the empty
name, which Python's `if not name:` also treats as missing) is named
"Checkpoint N" where N is the number of checkpoints CURRENTLY in the
store plus one — not the number of saves ever made — and in particular a
save into an empty store is named "Checkpoint 1". -/
theorem save_checkpoint_default_name (mgr : CheckpointManager)
    (st : StateDict) (desc freshId ts : String) :
    (CheckpointManager.save_checkpoint mgr st none desc freshId ts).1.name =
      "Checkpoint " ++ toString (mgr.checkpoints.length + 1) ∧
    (mgr.checkpoints = [] →
      (CheckpointManager.save_checkpoint mgr st none desc freshId ts).1.name =
        "Checkpoint 1") := by
  constructor
  · rfl
  · intro h
    have hlen : mgr.checkpoints.length = 0 := by rw [h]; rfl
    show "Checkpoint " ++ toString (mgr.checkpoints.length + 1) = "Checkpoint 1"
    rw [hlen]
    decide

/-- Witness for C8: the first save into an empty store. -/
theorem save_checkpoint_default_name_witness :
    (CheckpointManager.save_checkpoint ⟨[], []⟩ exState1 none "" "id1"
      "t1").1.name = "Checkpoint 1" :=
  (save_checkpoint_default_name ⟨[], []⟩ exState1 "" "id1" "t1").2 rfl

/-- Three saves with one delete in between: the store that has seen three
saves but currently holds two checkpoints. -/
def exMgrDel : CheckpointManager :=
  ((CheckpointManager.delete_checkpoint exMgrAB "aaa").getD
    (false, exMgrAB)).2

/-- Counterexample to C8 as stated: the third save ever made (after
deleting one of the two earlier checkpoints) is named "Checkpoint 2",
not "Checkpoint 3" as the saves-ever reading would demand. -/
theorem save_checkpoint_default_name_cex :
    (CheckpointManager.save_checkpoint exMgrDel exState1 none "" "id3"
      "t3").1.name = "Checkpoint 2" ∧
    ("Checkpoint 2" : String) ≠ "Checkpoint 3" := by
  constructor
  · rfl
  · decide

/-! ## Claim C4: no created_by anywhere in the manager -/

/-- C4.  Every summary dict produced by `list_checkpoints` carries exactly
the keys id / name / timestamp / message_count / description — there is no
"created_by" key.  (The `Checkpoint` dataclass likewise has no
`created_by` field, and `save_checkpoint` accepts no `created_by`
argument: the agent-side calls that pass one raise `TypeError`.) -/
theorem list_checkpoints_no_created_by (mgr : CheckpointManager)
    (s : List (String × CheckpointManager.SVal))
    (hs : s ∈ CheckpointManager.list_checkpoints mgr) :
    dictGet s "created_by" = none ∧
    s.map Prod.fst =
      ["id", "name", "timestamp", "message_count", "description"] := by
  unfold CheckpointManager.list_checkpoints at hs
  rw [List.mem_filterMap] at hs
  obtain ⟨cpId, _, hmap⟩ := hs
  cases hget : dictGet mgr.checkpoints cpId with
  | none => rw [hget] at hmap; simp at hmap
  | some cp =>
      rw [hget] at hmap
      simp at hmap
      subst hmap
      exact ⟨rfl, rfl⟩

/-- Witness for C4 on the concrete two-checkpoint store. -/
theorem list_checkpoints_no_created_by_witness :
    ([("id", CheckpointManager.SVal.s "aaa"),
      ("name", CheckpointManager.SVal.s "Checkpoint 1"),
      ("timestamp", CheckpointManager.SVal.s "t1"),
      ("message_count", CheckpointManager.SVal.n 1),
      ("description", CheckpointManager.SVal.s "")] ∈
        CheckpointManager.list_checkpoints exMgrAB) ∧
    dictGet [("id", CheckpointManager.SVal.s "aaa"),
      ("name", CheckpointManager.SVal.s "Checkpoint 1"),
      ("timestamp", CheckpointManager.SVal.s "t1"),
      ("message_count", CheckpointManager.SVal.n 1),
      ("description", CheckpointManager.SVal.s "")] "created_by" = none ∧
    ([("id", CheckpointManager.SVal.s "aaa"),
      ("name", CheckpointManager.SVal.s "Checkpoint 1"),
      ("timestamp", CheckpointManager.SVal.s "t1"),
      ("message_count", CheckpointManager.SVal.n 1),
      ("description", CheckpointManager.SVal.s "")].map Prod.fst =
      ["id", "name", "timestamp", "message_count", "description"]) :=
  ⟨by decide,
   (list_checkpoints_no_created_by exMgrAB _ (by decide)).1,
   (list_checkpoints_no_created_by exMgrAB _ (by decide)).2⟩

/-! ## Claim C6: deep-copy isolation of save_checkpoint

To make Python's object identity observable, message lists live in an
explicit heap of cells.  The caller's state dict holds a reference to its
`messages` list; mutating the live conversation state is writing a new
list into that cell.  `copy.deepcopy(state)` in `save_checkpoint`
allocates a FRESH cell holding the current value, and the checkpoint
keeps a reference to that fresh cell only. -/

/-- The heap: a list of message-list cells, addressed by position. -/
abbrev Heap : Type := List (List SerMsg)

/-- Dereference a cell. -/
def readRef (h : Heap) (r : Nat) : List SerMsg :=
  (List.get? h r).getD []

/-- In-place mutation of the list a cell holds (e.g. Python
`state["messages"].append(...)` installing a new content). -/
def writeRef (h : Heap) (r : Nat) (v : List SerMsg) : Heap :=
  List.set h r v

/-- `Checkpoint` in the heap model: `state` is a reference to the deep
copy made at save time. -/
structure CheckpointH where
  id : String
  name : String
  timestamp : String
  stateRef : Nat
  message_count : Nat
  description : String
deriving DecidableEq

/-- The manager in the heap model. -/
structure CheckpointManagerH where
  checkpoints : List (String × CheckpointH)
  checkpoint_order : List String
deriving DecidableEq

/-- `save_checkpoint` in the heap model: identical to the value-level
embedding except that `copy.deepcopy(state)` is explicit — a fresh cell
(at address `h.length`) receives the current content of the caller's
cell, and the checkpoint references the fresh cell. -/
def save_checkpointH (h : Heap) (mgr : CheckpointManagerH) (stateRef : Nat)
    (name : Option String) (description : String)
    (freshId timestamp : String) :
    Heap × CheckpointH × CheckpointManagerH :=
  let messages := readRef h stateRef
  let message_count := messages.length
  let name' :=
    match name with
    | some n =>
        if n = "" then "Checkpoint " ++ toString (mgr.checkpoints.length + 1)
        else n
    | none => "Checkpoint " ++ toString (mgr.checkpoints.length + 1)
  let copiedRef := List.length h
  let h' := h ++ [messages]
  let cp : CheckpointH :=
    ⟨freshId, name', timestamp, copiedRef, message_count, description⟩
  (h', cp,
   ⟨dictInsert mgr.checkpoints freshId cp,
    mgr.checkpoint_order ++ [freshId]⟩)

/-- `get_checkpoint` in the heap model. -/
def get_checkpointH (mgr : CheckpointManagerH) (checkpoint_id : String) :
    Option CheckpointH :=
  dictGet mgr.checkpoints checkpoint_id

/-- C6.  After `save_checkpoint`, writing ANY new content into the
caller's live cell leaves the content read through the saved checkpoint's
reference unchanged: the copy is deep and shares no cell with the
caller.  Moreover the checkpoint remains retrievable by `get`. -/
theorem save_checkpoint_deep_copy_isolation (h : Heap)
    (mgr : CheckpointManagerH) (r : Nat) (name : Option String)
    (desc freshId ts : String) (hr : r < h.length) :
    get_checkpointH (save_checkpointH h mgr r name desc freshId ts).2.2
        freshId = some (save_checkpointH h mgr r name desc freshId ts).2.1 ∧
    ∀ v : List SerMsg,
      readRef
        (writeRef (save_checkpointH h mgr r name desc freshId ts).1 r v)
        (save_checkpointH h mgr r name desc freshId ts).2.1.stateRef =
      readRef h r := by
  constructor
  · exact dictGet_dictInsert_self _ _ _
  · intro v
    show readRef (List.set (h ++ [readRef h r]) r v) h.length = readRef h r
    unfold readRef
    have hne : r ≠ h.length := by omega
    rw [List.get?_eq_getElem?, List.getElem?_set_ne hne]
    rw [List.getElem?_append_right (by omega)]
    simp

/-- Witness for C6: a one-cell heap; overwriting the live cell with a
longer list does not change what the checkpoint's cell holds. -/
theorem save_checkpoint_deep_copy_isolation_witness :
    (0 < ([[⟨"HumanMessage", "hi", [], []⟩]] : Heap).length) ∧
    (get_checkpointH
        (save_checkpointH [[⟨"HumanMessage", "hi", [], []⟩]] ⟨[], []⟩ 0
          none "" "aaa" "t1").2.2 "aaa" =
      some (save_checkpointH [[⟨"HumanMessage", "hi", [], []⟩]] ⟨[], []⟩ 0
          none "" "aaa" "t1").2.1 ∧
    ∀ v : List SerMsg,
      readRef
        (writeRef (save_checkpointH [[⟨"HumanMessage", "hi", [], []⟩]]
          ⟨[], []⟩ 0 none "" "aaa" "t1").1 0 v)
        (save_checkpointH [[⟨"HumanMessage", "hi", [], []⟩]] ⟨[], []⟩ 0
          none "" "aaa" "t1").2.1.stateRef =
      readRef [[⟨"HumanMessage", "hi", [], []⟩]] 0) :=
  ⟨by decide,
   save_checkpoint_deep_copy_isolation [[⟨"HumanMessage", "hi", [], []⟩]]
     ⟨[], []⟩ 0 none "" "aaa" "t1" (by decide)⟩

/-! ## Messages and the ChatAgent (src/app/agent.py)

The LangChain message objects of the live state. -/

inductive Msg where
  | human (content : String)
  | ai (content : String) (additional_kwargs : List (String × String))
      (tool_calls : List String)
  | system (content : String)
  | tool (content : String)
deriving DecidableEq

/-- `hasattr(msg, "tool_calls") and msg.tool_calls`: only AI messages
carry tool calls. -/
def toolCallsOf : Msg → List String
  | .ai _ _ tc => tc
  | _ => []

def isSystemMsg : Msg → Bool
  | .system _ => true
  | _ => false

/-- Python exceptions that can escape `ChatAgent.chat`: a collaborator
(model / tool / judge) failure, the `TypeError` raised by calling
`save_checkpoint` with a `created_by` keyword it does not accept, and a
marker for the unbounded agent-tools loop never terminating. -/
inductive PyErr where
  | collab (msg : String)
  | typeError (msg : String)
  | nonTermination
deriving DecidableEq

/-- `CheckpointDecision` of src/app/checkpoint_judge_agent.py. -/
structure CheckpointDecision where
  should_save : Bool
  reason : String
  suggested_name : String
deriving DecidableEq

/-- The graph state `AgentState`.  The three judge flags are `Option`s
because Python dict keys can be absent: `ChatAgent.restore_checkpoint`
installs a state carrying only "messages". -/
structure AgentState where
  messages : List Msg
  should_auto_checkpoint : Option Bool
  auto_checkpoint_name : Option String
  auto_checkpoint_reason : Option String
deriving DecidableEq

/-- The agent: its live state and its checkpoint manager.  The llm,
tools and judge collaborators are passed to the operations as
functions. -/
structure ChatAgent where
  current_state : AgentState
  checkpoint_manager : CheckpointManager
deriving DecidableEq

/-- The language-model collaborator (`self.llm_with_tools.invoke`). -/
abbrev ModelFn := List Msg → Except PyErr Msg

/-- The tool collaborator (LangGraph `ToolNode` execution): receives the
tool-calling AI message, returns the tool-result messages. -/
abbrev ToolFn := Msg → Except PyErr (List Msg)

/-- The checkpoint-judge collaborator
(`CheckpointJudgeAgent.should_create_checkpoint`): recent
(role, content) pairs, total message count, last checkpoint count. -/
abbrev JudgeFn :=
  List (String × String) → Nat → Nat → Except PyErr CheckpointDecision

/-- `_call_model`: a system message is prepended for the model invocation
when the state does not already start with one (it is NOT added to the
state). -/
def withSystemFirst (sysPrompt : String) (msgs : List Msg) : List Msg :=
  match msgs with
  | [] => [Msg.system sysPrompt]
  | m :: _ => if isSystemMsg m then msgs else Msg.system sysPrompt :: msgs

/-- The agent / tools cycle of the graph: call the model, append its
response to the state messages; while the response carries tool calls,
execute them, append the tool messages and call the model again.  The
source has no iteration cap, so the embedding carries fuel and reports
exhaustion as `nonTermination`. -/
def agentToolsLoop (model : ModelFn) (toolExec : ToolFn)
    (sysPrompt : String) : Nat → List Msg → Except PyErr (List Msg)
  | 0, _ => .error .nonTermination
  | fuel + 1, msgs =>
      match model (withSystemFirst sysPrompt msgs) with
      | .error e => .error e
      | .ok resp =>
          if toolCallsOf resp = [] then .ok (msgs ++ [resp])
          else
            match toolExec resp with
            | .error e => .error e
            | .ok toolMsgs =>
                agentToolsLoop model toolExec sysPrompt fuel
                  ((msgs ++ [resp]) ++ toolMsgs)

/-- `_judge_checkpoint`, first half: the last 8 messages filtered to
user / assistant (role, content) pairs. -/
def recentExchanges (msgs : List Msg) : List (String × String) :=
  (msgs.drop (msgs.length - 8)).filterMap (fun m =>
    match m with
    | .human c => some ("user", c)
    | .ai c _ _ => some ("assistant", c)
    | _ => none)

/-- `_judge_checkpoint`: build the context and ask the judge collaborator.
No exception handling — a judge failure propagates. -/
def judgeStep (judge : JudgeFn) (mgr : CheckpointManager)
    (msgs : List Msg) : Except PyErr CheckpointDecision :=
  let latest := CheckpointManager.get_latest_checkpoint mgr
  let lastCount := (latest.map (fun cp => cp.message_count)).getD 0
  judge (recentExchanges msgs) msgs.length lastCount

/-- `self.graph.invoke(state)`: agent / tools cycle, then the judge node
writing the three flags. -/
def runGraph (model : ModelFn) (toolExec : ToolFn) (judge : JudgeFn)
    (mgr : CheckpointManager) (sysPrompt : String) (fuel : Nat)
    (st : AgentState) : Except PyErr AgentState :=
  match agentToolsLoop model toolExec sysPrompt fuel st.messages with
  | .error e => .error e
  | .ok msgs' =>
      match judgeStep judge mgr msgs' with
      | .error e => .error e
      | .ok d =>
          .ok { messages := msgs',
                should_auto_checkpoint := some d.should_save,
                auto_checkpoint_name :=
                  some (if d.should_save then d.suggested_name else ""),
                auto_checkpoint_reason := some d.reason }

/-- The response extraction at the end of `chat`: the last AI message's
content, or the apology fallback. -/
def lastAIContent (msgs : List Msg) : String :=
  ((msgs.reverse.findSome? (fun m =>
    match m with
    | .ai c _ _ => some c
    | _ => none))).getD "I apologize, but I couldn't generate a response."

/-- `ChatAgent.chat(user_message)`.  The user message is appended to
`self.current_state` BEFORE the graph is invoked (line 200 mutates the
state dict in place), so a graph failure leaves the appended message in
the persistent state — there is no try/except and no rollback.  On
success the result is committed, then — when the judge recommended
saving — `_create_auto_checkpoint` runs, whose
`save_checkpoint(..., created_by="ai")` call raises `TypeError` because
`CheckpointManager.save_checkpoint` accepts no such keyword.  The
returned pair is (agent as left by the call, outcome). -/
def ChatAgent.chat (model : ModelFn) (toolExec : ToolFn) (judge : JudgeFn)
    (sysPrompt : String) (fuel : Nat) (ag : ChatAgent)
    (user_message : String) : ChatAgent × Except PyErr String :=
  let st1 : AgentState :=
    { ag.current_state with
      messages := ag.current_state.messages ++ [Msg.human user_message] }
  match runGraph model toolExec judge ag.checkpoint_manager sysPrompt fuel
      st1 with
  | .error e => ({ ag with current_state := st1 }, .error e)
  | .ok result =>
      let ag1 : ChatAgent := { ag with current_state := result }
      if result.should_auto_checkpoint.getD false then
        (ag1, .error (.typeError
          "save_checkpoint() got an unexpected keyword argument created_by"))
      else
        (ag1, .ok (lastAIContent result.messages))

/-- The reconstruction loop of `ChatAgent.restore_checkpoint`: only the
type tags HumanMessage / AIMessage / SystemMessage are rebuilt (the AI
case keeping `additional_kwargs` but not `tool_calls`); every other tag
is dropped. -/
def reconstructMsg (s : SerMsg) : Option Msg :=
  if s.type = "HumanMessage" then some (Msg.human s.content)
  else if s.type = "AIMessage" then
    some (Msg.ai s.content s.additional_kwargs [])
  else if s.type = "SystemMessage" then some (Msg.system s.content)
  else none

/-- `ChatAgent.restore_checkpoint`: delegate to the manager, rebuild the
live messages from the serialized snapshot, and install a state that
carries ONLY "messages" (the auto-checkpoint flags are absent). -/
def ChatAgent.restore_checkpoint (ag : ChatAgent) (checkpoint_id : String) :
    ChatAgent × Bool :=
  match CheckpointManager.restore_checkpoint ag.checkpoint_manager
      checkpoint_id with
  | none => (ag, false)
  | some (restored_state, mgr') =>
      let messages := restored_state.messages.filterMap reconstructMsg
      (⟨{ messages := messages,
          should_auto_checkpoint := none,
          auto_checkpoint_name := none,
          auto_checkpoint_reason := none }, mgr'⟩, true)

/-! ## Facts about the chat pipeline -/

theorem agentToolsLoop_take (model : ModelFn) (toolExec : ToolFn)
    (sys : String) :
    ∀ (fuel : Nat) (msgs out : List Msg),
      agentToolsLoop model toolExec sys fuel msgs = .ok out →
      out.take msgs.length = msgs := by
  intro fuel
  induction fuel with
  | zero => intro msgs out h; simp [agentToolsLoop] at h
  | succ n ih =>
      intro msgs out h
      unfold agentToolsLoop at h
      cases hm : model (withSystemFirst sys msgs) with
      | error e =>
          rw [hm] at h
          dsimp only at h
          exact Except.noConfusion h
      | ok resp =>
          rw [hm] at h
          dsimp only at h
          by_cases htc : toolCallsOf resp = []
          · rw [if_pos htc] at h
            have hout : msgs ++ [resp] = out := by
              simpa using h
            rw [← hout]
            exact List.take_left msgs [resp]
          · rw [if_neg htc] at h
            cases hte : toolExec resp with
            | error e =>
                rw [hte] at h
                dsimp only at h
                exact Except.noConfusion h
            | ok toolMsgs =>
                rw [hte] at h
                dsimp only at h
                have h1 := ih ((msgs ++ [resp]) ++ toolMsgs) out h
                have hle : msgs.length ≤
                    ((msgs ++ [resp]) ++ toolMsgs).length := by
                  simp
                calc out.take msgs.length
                    = (out.take (((msgs ++ [resp]) ++ toolMsgs).length)).take
                        msgs.length := by
                      rw [List.take_take, Nat.min_eq_left hle]
                  _ = ((msgs ++ [resp]) ++ toolMsgs).take msgs.length := by
                      rw [h1]
                  _ = (msgs ++ ([resp] ++ toolMsgs)).take msgs.length := by
                      rw [List.append_assoc]
                  _ = msgs := List.take_left msgs ([resp] ++ toolMsgs)

theorem runGraph_ok_take (model : ModelFn) (toolExec : ToolFn)
    (judge : JudgeFn) (mgr : CheckpointManager) (sys : String) (fuel : Nat)
    (st : AgentState) (result : AgentState)
    (h : runGraph model toolExec judge mgr sys fuel st = .ok result) :
    result.messages.take st.messages.length = st.messages := by
  unfold runGraph at h
  cases hl : agentToolsLoop model toolExec sys fuel st.messages with
  | error e =>
      rw [hl] at h
      dsimp only at h
      exact Except.noConfusion h
  | ok msgs' =>
      rw [hl] at h
      dsimp only at h
      cases hj : judgeStep judge mgr msgs' with
      | error e =>
          rw [hj] at h
          dsimp only at h
          exact Except.noConfusion h
      | ok d =>
          rw [hj] at h
          dsimp only at h
          have hres : result.messages = msgs' := by
            cases h
            rfl
          rw [hres]
          exact agentToolsLoop_take model toolExec sys fuel st.messages
            msgs' hl

/-! ## Claim C2: no rollback on collaborator failure -/

/-- C2 (amended).  When the graph invocation of a turn fails (model or
tool collaborator error, judge error, or non-termination marker), the
exception propagates out of `chat` unchanged, and the persistent
conversation state KEEPS the user message that `chat` appended before
invoking the graph: the turn is partially committed, not rolled back. -/
theorem chat_collaborator_failure_keeps_user_message (model : ModelFn)
    (toolExec : ToolFn) (judge : JudgeFn) (sys : String) (fuel : Nat)
    (ag : ChatAgent) (u : String) (e : PyErr)
    (hfail : runGraph model toolExec judge ag.checkpoint_manager sys fuel
      { ag.current_state with
        messages := ag.current_state.messages ++ [Msg.human u] } =
      .error e) :
    ChatAgent.chat model toolExec judge sys fuel ag u =
      ({ ag with current_state :=
        { ag.current_state with
          messages := ag.current_state.messages ++ [Msg.human u] } },
       .error e) := by
  unfold ChatAgent.chat
  dsimp only
  rw [hfail]

/-- The always-failing model collaborator. -/
def failModel : ModelFn := fun _ => .error (.collab "model down")

/-- A model collaborator answering "hello" with no tool calls. -/
def okModel : ModelFn := fun _ => .ok (Msg.ai "hello" [] [])

/-- A tool collaborator that is never reached in the scenarios below. -/
def noTools : ToolFn := fun _ => .ok []

/-- A judge that succeeds and declines to auto-save. -/
def okJudgeNo : JudgeFn := fun _ _ _ => .ok ⟨false, "nothing notable", ""⟩

/-- The always-failing judge collaborator. -/
def failJudge : JudgeFn := fun _ _ _ => .error (.collab "judge down")

/-- A fresh agent with the initial state of `ChatAgent.__init__`. -/
def exAgent0 : ChatAgent :=
  ⟨⟨[], some false, some "", some ""⟩, ⟨[], []⟩⟩

/-- Counterexample to C2 as stated: on a model failure the conversation
state is NOT restored to its pre-turn content — the appended user
message stays. -/
theorem chat_no_rollback_cex :
    (ChatAgent.chat failModel noTools okJudgeNo "sys" 5 exAgent0
        "hi").1.current_state.messages = [Msg.human "hi"] ∧
    (ChatAgent.chat failModel noTools okJudgeNo "sys" 5 exAgent0 "hi").2 =
      .error (.collab "model down") ∧
    [Msg.human "hi"] ≠ exAgent0.current_state.messages :=
  ⟨rfl, rfl, by decide⟩

/-- Witness for C2 (amended) at the failing-model scenario. -/
theorem chat_collaborator_failure_keeps_user_message_witness :
    (runGraph failModel noTools okJudgeNo exAgent0.checkpoint_manager "sys" 5
      { exAgent0.current_state with
        messages := exAgent0.current_state.messages ++ [Msg.human "hi"] } =
      .error (.collab "model down")) ∧
    ChatAgent.chat failModel noTools okJudgeNo "sys" 5 exAgent0 "hi" =
      ({ exAgent0 with current_state :=
        { exAgent0.current_state with
          messages := exAgent0.current_state.messages ++ [Msg.human "hi"] } },
       .error (.collab "model down")) :=
  ⟨rfl,
   chat_collaborator_failure_keeps_user_message failModel noTools okJudgeNo
     "sys" 5 exAgent0 "hi" (.collab "model down") rfl⟩

/-! ## Claim C3: a judge failure is NOT swallowed -/

/-- C3 (amended).  A failure raised by the checkpoint-judge collaborator
propagates out of `chat` and aborts the turn: no user-visible response is
returned, and the model's reply is not committed to the persistent state
(which keeps only the appended user message). -/
theorem chat_judge_failure_aborts_turn (model : ModelFn)
    (toolExec : ToolFn) (judge : JudgeFn) (sys : String) (fuel : Nat)
    (ag : ChatAgent) (u : String) (msgs' : List Msg) (e : PyErr)
    (hloop : agentToolsLoop model toolExec sys fuel
      (ag.current_state.messages ++ [Msg.human u]) = .ok msgs')
    (hjudge : judgeStep judge ag.checkpoint_manager msgs' = .error e) :
    ChatAgent.chat model toolExec judge sys fuel ag u =
      ({ ag with current_state :=
        { ag.current_state with
          messages := ag.current_state.messages ++ [Msg.human u] } },
       .error e) := by
  unfold ChatAgent.chat
  dsimp only
  unfold runGraph
  dsimp only
  rw [hloop]
  dsimp only
  rw [hjudge]

/-- Counterexample to C3 as stated: with a failing judge, `chat` raises
instead of returning the produced response, and the model's reply is
lost from the state. -/
theorem chat_judge_failure_cex :
    (ChatAgent.chat okModel noTools failJudge "sys" 5 exAgent0 "hi").2 =
      .error (.collab "judge down") ∧
    (ChatAgent.chat okModel noTools failJudge "sys" 5 exAgent0
        "hi").1.current_state.messages = [Msg.human "hi"] ∧
    (∀ s : String,
      (ChatAgent.chat okModel noTools failJudge "sys" 5 exAgent0 "hi").2 ≠
        .ok s) := by
  refine ⟨rfl, rfl, ?_⟩
  intro s h
  rw [show (ChatAgent.chat okModel noTools failJudge "sys" 5 exAgent0
      "hi").2 = Except.error (PyErr.collab "judge down") from rfl] at h
  exact Except.noConfusion h

/-- Witness for C3 (amended) at the failing-judge scenario. -/
theorem chat_judge_failure_aborts_turn_witness :
    (agentToolsLoop okModel noTools "sys" 5
      (exAgent0.current_state.messages ++ [Msg.human "hi"]) =
      .ok [Msg.human "hi", Msg.ai "hello" [] []]) ∧
    (judgeStep failJudge exAgent0.checkpoint_manager
      [Msg.human "hi", Msg.ai "hello" [] []] =
      .error (.collab "judge down")) ∧
    ChatAgent.chat okModel noTools failJudge "sys" 5 exAgent0 "hi" =
      ({ exAgent0 with current_state :=
        { exAgent0.current_state with
          messages := exAgent0.current_state.messages ++ [Msg.human "hi"] } },
       .error (.collab "judge down")) :=
  ⟨rfl, rfl,
   chat_judge_failure_aborts_turn okModel noTools failJudge "sys" 5
     exAgent0 "hi" [Msg.human "hi", Msg.ai "hello" [] []]
     (.collab "judge down") rfl rfl⟩

/-! ## Claim C9: no empty-input validation in chat -/

/-- C9 (amended).  `chat` performs no validation of the user text: for
EVERY input, including text that is empty after trimming, the user
message is appended to the persistent conversation state (and, on the
success path, forwarded through the graph to the model); no
ValidationError exists and nothing is rejected. -/
theorem chat_appends_any_user_text (model : ModelFn) (toolExec : ToolFn)
    (judge : JudgeFn) (sys : String) (fuel : Nat) (ag : ChatAgent)
    (u : String) :
    (ChatAgent.chat model toolExec judge sys fuel ag
        u).1.current_state.messages.take
        (ag.current_state.messages.length + 1) =
      ag.current_state.messages ++ [Msg.human u] := by
  unfold ChatAgent.chat
  dsimp only
  cases hrun : runGraph model toolExec judge ag.checkpoint_manager sys fuel
      { messages := ag.current_state.messages ++ [Msg.human u],
        should_auto_checkpoint := ag.current_state.should_auto_checkpoint,
        auto_checkpoint_name := ag.current_state.auto_checkpoint_name,
        auto_checkpoint_reason := ag.current_state.auto_checkpoint_reason } with
  | error e =>
      dsimp only
      exact List.take_of_length_le (by simp)
  | ok result =>
      dsimp only
      have htake := runGraph_ok_take model toolExec judge
        ag.checkpoint_manager sys fuel _ result hrun
      dsimp only at htake
      rw [List.length_append] at htake
      by_cases hauto : result.should_auto_checkpoint.getD false
      · rw [if_pos hauto]
        simpa using htake
      · rw [if_neg hauto]
        simpa using htake

/-- Counterexample to C9 as stated: empty user text raises nothing — the
turn runs, the empty message is committed and forwarded, and a response
comes back. -/
theorem chat_empty_input_cex :
    (ChatAgent.chat okModel noTools okJudgeNo "sys" 5 exAgent0 "").2 =
      .ok "hello" ∧
    (ChatAgent.chat okModel noTools okJudgeNo "sys" 5 exAgent0
        "").1.current_state.messages =
      [Msg.human "", Msg.ai "hello" [] []] ∧
    [Msg.human "", Msg.ai "hello" [] []] ≠
      exAgent0.current_state.messages :=
  ⟨rfl, rfl, by decide⟩

/-! ## Claim C10: agent-level restore reconstruction -/

/-- C10.  After a successful `ChatAgent.restore_checkpoint`, the live
message list is exactly the reconstruction of the snapshot entries —
those tagged HumanMessage / AIMessage / SystemMessage, in stored order —
every other tag (e.g. ToolMessage) being dropped, so the restored list
can be shorter than the recorded `message_count`; and the installed
state carries none of the auto-checkpoint flags. -/
theorem agent_restore_filters_messages (ag : ChatAgent) (cpId : String)
    (cp : Checkpoint) (i : Nat)
    (hcp : dictGet ag.checkpoint_manager.checkpoints cpId = some cp)
    (hidx : listIndex? ag.checkpoint_manager.checkpoint_order cpId = some i)
    (hmc : cp.message_count = cp.state.messages.length) :
    (ChatAgent.restore_checkpoint ag cpId).2 = true ∧
    (ChatAgent.restore_checkpoint ag cpId).1.current_state.messages =
      cp.state.messages.filterMap reconstructMsg ∧
    (∀ s ∈ cp.state.messages,
      (reconstructMsg s).isSome ↔
        (s.type = "HumanMessage" ∨ s.type = "AIMessage" ∨
         s.type = "SystemMessage")) ∧
    (ChatAgent.restore_checkpoint ag
        cpId).1.current_state.messages.length ≤ cp.message_count ∧
    (ChatAgent.restore_checkpoint ag
        cpId).1.current_state.should_auto_checkpoint = none ∧
    (ChatAgent.restore_checkpoint ag
        cpId).1.current_state.auto_checkpoint_name = none ∧
    (ChatAgent.restore_checkpoint ag
        cpId).1.current_state.auto_checkpoint_reason = none := by
  have hres : CheckpointManager.restore_checkpoint ag.checkpoint_manager
      cpId = some (cp.state,
        ⟨deleteMany ag.checkpoint_manager.checkpoints
          (ag.checkpoint_manager.checkpoint_order.drop (i + 1)),
         ag.checkpoint_manager.checkpoint_order.take (i + 1)⟩) := by
    unfold CheckpointManager.restore_checkpoint
    rw [hcp, hidx]
  have hiff : ∀ s ∈ cp.state.messages,
      (reconstructMsg s).isSome ↔
        (s.type = "HumanMessage" ∨ s.type = "AIMessage" ∨
         s.type = "SystemMessage") := by
    intro s _
    unfold reconstructMsg
    by_cases h1 : s.type = "HumanMessage"
    · simp [h1]
    · by_cases h2 : s.type = "AIMessage"
      · simp [h1, h2]
      · by_cases h3 : s.type = "SystemMessage"
        · simp [h1, h2, h3]
        · simp [h1, h2, h3]
  unfold ChatAgent.restore_checkpoint
  rw [hres]
  dsimp only
  refine ⟨rfl, rfl, hiff, ?_, rfl, rfl, rfl⟩
  rw [hmc]
  exact List.length_filterMap_le _ _

/-- A snapshot whose middle entry is a ToolMessage. -/
def exToolState : StateDict :=
  ⟨[⟨"HumanMessage", "q", [], []⟩,
    ⟨"ToolMessage", "result", [], []⟩,
    ⟨"AIMessage", "a", [], []⟩]⟩

/-- An agent owning one checkpoint "ccc" whose snapshot contains a
ToolMessage (message_count 3). -/
def exAgentTool : ChatAgent :=
  ⟨⟨[], some false, some "", some ""⟩,
   (CheckpointManager.save_checkpoint ⟨[], []⟩ exToolState none "" "ccc"
     "t1").2⟩

/-- Witness for C10: restoring "ccc" drops the ToolMessage, giving a live
list of 2 messages against a recorded message_count of 3, with no
auto-checkpoint flags. -/
theorem agent_restore_filters_messages_witness :
    (dictGet exAgentTool.checkpoint_manager.checkpoints "ccc" =
      some ⟨"ccc", "Checkpoint 1", "t1", exToolState, 3, ""⟩) ∧
    ((ChatAgent.restore_checkpoint exAgentTool
        "ccc").1.current_state.messages =
      [Msg.human "q", Msg.ai "a" [] []]) ∧
    ((ChatAgent.restore_checkpoint exAgentTool
        "ccc").1.current_state.messages.length < 3) ∧
    ((ChatAgent.restore_checkpoint exAgentTool "ccc").2 = true ∧
     (ChatAgent.restore_checkpoint exAgentTool
        "ccc").1.current_state.messages =
       (⟨"ccc", "Checkpoint 1", "t1", exToolState, 3, ""⟩ :
         Checkpoint).state.messages.filterMap reconstructMsg ∧
     (∀ s ∈ (⟨"ccc", "Checkpoint 1", "t1", exToolState, 3, ""⟩ :
         Checkpoint).state.messages,
       (reconstructMsg s).isSome ↔
         (s.type = "HumanMessage" ∨ s.type = "AIMessage" ∨
          s.type = "SystemMessage")) ∧
     (ChatAgent.restore_checkpoint exAgentTool
        "ccc").1.current_state.messages.length ≤
       (⟨"ccc", "Checkpoint 1", "t1", exToolState, 3, ""⟩ :
         Checkpoint).message_count ∧
     (ChatAgent.restore_checkpoint exAgentTool
        "ccc").1.current_state.should_auto_checkpoint = none ∧
     (ChatAgent.restore_checkpoint exAgentTool
        "ccc").1.current_state.auto_checkpoint_name = none ∧
     (ChatAgent.restore_checkpoint exAgentTool
        "ccc").1.current_state.auto_checkpoint_reason = none) :=
  ⟨by decide, by decide, by decide,
   agent_restore_filters_messages exAgentTool "ccc"
     ⟨"ccc", "Checkpoint 1", "t1", exToolState, 3, ""⟩ 0
     (by decide) (by decide) (by decide)⟩

/-! ## Branch/Version Tracker (spec 4.3)

`dash_app.py` calls `agent.edit_message`, `agent.switch_message_version`
and `agent.get_conversation_with_edit_info`, but these methods are not
present in src/app/agent.py: the tracker implementation is missing from
the sources, so it is modelled from the specification. -/

/-- Errors of the tracker contract (spec 4.3). -/
inductive EditErr where
  | notFound
  | validation
deriving DecidableEq

def isHumanMsg : Msg → Bool
  | .human _ => true
  | _ => false

/-- Python `str.strip()`: drop whitespace from both ends (modelled on the
character list so that it evaluates). -/
def pyStrip (s : String) : String :=
  ⟨((s.data.dropWhile Char.isWhitespace).reverse.dropWhile
    Char.isWhitespace).reverse⟩

/-- Modelled from the spec: one stored version of an edited message
position — its content and the resulting suffix generated for it. -/
structure VersionEntry where
  content : String
  suffix : List Msg
deriving DecidableEq

/-- Modelled from the spec: the Message Version Set of an edited
position — the ordered version list and the active index. -/
structure VersionSet where
  versions : List VersionEntry
  current_index : Nat
deriving DecidableEq

/-- Modelled from the spec: the tracker keyed by message position. -/
abbrev VersionTracker := List (Nat × VersionSet)

/-- Modelled from the spec: the original resulting suffix of position
`i` — everything after it up to the next user message or the end of the
sequence. -/
def origResultingSuffix (conv : List Msg) (i : Nat) : List Msg :=
  (conv.drop (i + 1)).takeWhile (fun m => !(isHumanMsg m))

/-- Modelled from the spec (4.3, `edit`): the missing
`ChatAgent.edit_message`.  Preconditions: `message_index` refers to a
user message still present (else NotFoundError) and the new content is
non-empty after trimming (else ValidationError).  A first edit seeds the
version set with version 0 = the original content and its original
suffix.  The new content becomes a new version at the end of the list,
the live sequence is truncated at the position and rebuilt with the new
message, and the Turn Executor re-run supplies the fresh suffix — an
external model interaction, passed here as `genSuffix` — which is
recorded as the new version's suffix and appended to the live
sequence. -/
def edit_message (conv : List Msg) (tracker : VersionTracker) (i : Nat)
    (newContent : String) (genSuffix : List Msg) :
    Except EditErr (List Msg × VersionTracker) :=
  match List.get? conv i with
  | none => .error .notFound
  | some m =>
      match m with
      | .human origContent =>
          if pyStrip newContent = "" then .error .validation
          else
            let vs0 :=
              match dictGet tracker i with
              | some vs => vs
              | none =>
                  ⟨[⟨origContent, origResultingSuffix conv i⟩], 0⟩
            let newIdx := vs0.versions.length
            let vs1 : VersionSet :=
              ⟨vs0.versions ++ [⟨newContent, genSuffix⟩], newIdx⟩
            .ok (conv.take i ++ [Msg.human newContent] ++ genSuffix,
                 dictInsert tracker i vs1)
      | _ => .error .notFound

/-- Modelled from the spec (4.3, `switch_version`): the missing
`ChatAgent.switch_message_version`.  Requires a version set at the
position and an in-range target; sets `current_index`, truncates the
live sequence to the position, re-appends the target version's stored
content and its stored suffix verbatim — no model call. -/
def switch_version (conv : List Msg) (tracker : VersionTracker) (i : Nat)
    (target : Nat) : Except EditErr (List Msg × VersionTracker) :=
  match dictGet tracker i with
  | none => .error .notFound
  | some vs =>
      match List.get? vs.versions target with
      | none => .error .notFound
      | some entry =>
          .ok (conv.take i ++ [Msg.human entry.content] ++ entry.suffix,
               dictInsert tracker i
                 { vs with current_index := target })

/-! ## Claim C7: edit twice, then switch versions -/

/-- C7 (amended).  Editing the user message at position `i` (original
content `origContent`) first to `a` and then to `b` yields the version
list [original, a, b] with `current_index = 2`; `switch_version (i, 1)`
then restores content exactly `a` with the suffix `sA` that was generated
for it, verbatim and without any model interaction, `switch_version
(i, 2)` returns to `b` and its suffix `sB`, and `switch_version (i, 0)`
restores the ORIGINAL pre-edit content with its original suffix. -/
theorem edit_twice_switch_round_trip (conv : List Msg)
    (tracker : VersionTracker) (i : Nat) (origContent a b : String)
    (sA sB : List Msg)
    (hi : List.get? conv i = some (Msg.human origContent))
    (hfresh : dictGet tracker i = none)
    (ha : pyStrip a ≠ "") (hb : pyStrip b ≠ "") :
    ∃ conv2 t2 : _,
      edit_message conv tracker i a sA =
        .ok (conv.take i ++ [Msg.human a] ++ sA,
             dictInsert tracker i
               ⟨[⟨origContent, origResultingSuffix conv i⟩, ⟨a, sA⟩], 1⟩) ∧
      edit_message (conv.take i ++ [Msg.human a] ++ sA)
          (dictInsert tracker i
            ⟨[⟨origContent, origResultingSuffix conv i⟩, ⟨a, sA⟩], 1⟩)
          i b sB = .ok (conv2, t2) ∧
      conv2 = conv.take i ++ [Msg.human b] ++ sB ∧
      (∃ t' : VersionTracker, switch_version conv2 t2 i 1 =
        .ok (conv.take i ++ [Msg.human a] ++ sA, t')) ∧
      (∃ t' : VersionTracker, switch_version conv2 t2 i 2 =
        .ok (conv.take i ++ [Msg.human b] ++ sB, t')) ∧
      (∃ t' : VersionTracker, switch_version conv2 t2 i 0 =
        .ok (conv.take i ++ [Msg.human origContent] ++
          origResultingSuffix conv i, t')) := by
  have hlen : i < conv.length := by
    by_contra hc
    rw [List.get?_eq_none.mpr (Nat.le_of_not_lt hc)] at hi
    exact Option.noConfusion hi
  have htakelen : (conv.take i).length = i := by
    rw [List.length_take]
    omega
  have htail : ∀ (x : Msg) (sfx : List Msg),
      List.get? (conv.take i ++ [x] ++ sfx) i = some x := by
    intro x sfx
    rw [List.append_assoc]
    rw [List.get?_append_right (by omega)]
    rw [htakelen]
    simp
  have htake2 : ∀ (x : Msg) (sfx : List Msg),
      (conv.take i ++ [x] ++ sfx).take i = conv.take i := by
    intro x sfx
    rw [List.append_assoc]
    exact List.take_left' htakelen
  set vs1 : VersionSet :=
    ⟨[⟨origContent, origResultingSuffix conv i⟩, ⟨a, sA⟩], 1⟩ with hvs1
  set t1 : VersionTracker := dictInsert tracker i vs1 with ht1
  set vs2 : VersionSet :=
    ⟨[⟨origContent, origResultingSuffix conv i⟩, ⟨a, sA⟩, ⟨b, sB⟩], 2⟩
    with hvs2
  set t2 : VersionTracker := dictInsert t1 i vs2 with ht2
  have hget1 : dictGet t1 i = some vs1 := dictGet_dictInsert_self _ _ _
  have hget2 : dictGet t2 i = some vs2 := dictGet_dictInsert_self _ _ _
  refine ⟨conv.take i ++ [Msg.human b] ++ sB, t2, ?_, ?_, rfl, ?_, ?_, ?_⟩
  · unfold edit_message
    rw [hi]
    dsimp only
    rw [if_neg ha, hfresh]
    dsimp only
    rfl
  · unfold edit_message
    rw [htail (Msg.human a) sA]
    dsimp only
    rw [if_neg hb, hget1]
    dsimp only
    rw [htake2 (Msg.human a) sA]
    rfl
  · refine ⟨dictInsert t2 i { vs2 with current_index := 1 }, ?_⟩
    unfold switch_version
    rw [hget2]
    dsimp only
    rw [htake2 (Msg.human b) sB]
    rfl
  · refine ⟨dictInsert t2 i { vs2 with current_index := 2 }, ?_⟩
    unfold switch_version
    rw [hget2]
    dsimp only
    rw [htake2 (Msg.human b) sB]
    rfl
  · refine ⟨dictInsert t2 i { vs2 with current_index := 0 }, ?_⟩
    unfold switch_version
    rw [hget2]
    dsimp only
    rw [htake2 (Msg.human b) sB]
    rfl

/-- A conversation whose first user message has original content "O". -/
def exConvO : List Msg := [Msg.human "O", Msg.ai "r0" [] []]

/-- Edit position 0 to "A" (the re-run generating reply "rA"). -/
def exEdit1 : List Msg × VersionTracker :=
  ((edit_message exConvO [] 0 "A" [Msg.ai "rA" [] []]).toOption).getD
    ([], [])

/-- Then edit position 0 to "B" (the re-run generating reply "rB"). -/
def exEdit2 : List Msg × VersionTracker :=
  ((edit_message exEdit1.1 exEdit1.2 0 "B" [Msg.ai "rB" [] []]).toOption).getD
    ([], [])

/-- Then switch position 0 to version 0. -/
def exSwitch0 : List Msg × VersionTracker :=
  ((switch_version exEdit2.1 exEdit2.2 0 0).toOption).getD ([], [])

/-- Counterexample to C7 as stated: after editing "O" to "A" and then to
"B", `switch_version (0, 0)` restores the ORIGINAL content "O" (version
0 is the pre-edit original), not "A". -/
theorem switch_version_zero_restores_original_cex :
    exSwitch0.1 = [Msg.human "O", Msg.ai "r0" [] []] ∧
    ("O" : String) ≠ "A" :=
  ⟨rfl, by decide⟩

/-- Witness for C7 (amended) on the concrete conversation. -/
theorem edit_twice_switch_round_trip_witness :
    (List.get? exConvO 0 = some (Msg.human "O")) ∧
    (dictGet ([] : VersionTracker) 0 = none) ∧
    (pyStrip "A" ≠ "") ∧
    (pyStrip "B" ≠ "") ∧
    (∃ conv2 t2 : _,
      edit_message exConvO [] 0 "A" [Msg.ai "rA" [] []] =
        .ok (exConvO.take 0 ++ [Msg.human "A"] ++ [Msg.ai "rA" [] []],
             dictInsert [] 0
               ⟨[⟨"O", origResultingSuffix exConvO 0⟩,
                 ⟨"A", [Msg.ai "rA" [] []]⟩], 1⟩) ∧
      edit_message (exConvO.take 0 ++ [Msg.human "A"] ++ [Msg.ai "rA" [] []])
          (dictInsert [] 0
            ⟨[⟨"O", origResultingSuffix exConvO 0⟩,
              ⟨"A", [Msg.ai "rA" [] []]⟩], 1⟩)
          0 "B" [Msg.ai "rB" [] []] = .ok (conv2, t2) ∧
      conv2 = exConvO.take 0 ++ [Msg.human "B"] ++ [Msg.ai "rB" [] []] ∧
      (∃ t' : VersionTracker, switch_version conv2 t2 0 1 =
        .ok (exConvO.take 0 ++ [Msg.human "A"] ++ [Msg.ai "rA" [] []], t')) ∧
      (∃ t' : VersionTracker, switch_version conv2 t2 0 2 =
        .ok (exConvO.take 0 ++ [Msg.human "B"] ++ [Msg.ai "rB" [] []], t')) ∧
      (∃ t' : VersionTracker, switch_version conv2 t2 0 0 =
        .ok (exConvO.take 0 ++ [Msg.human "O"] ++
          origResultingSuffix exConvO 0, t'))) :=
  ⟨by decide, by decide, by decide, by decide,
   edit_twice_switch_round_trip exConvO [] 0 "O" "A" "B"
     [Msg.ai "rA" [] []] [Msg.ai "rB" [] []]
     (by decide) (by decide) (by decide) (by decide)⟩
